import Mathlib

/-!
Verification development for the structural-extraction, dependency-resolution
and metrics/insight core of the Codemnesis repository analyzer.

The Python sources are shallowly embedded over `List Char` (named `Str`
below): every Python `str` becomes a `Str`, Python dictionaries become
insertion-ordered association lists with unique keys (`Dict`), and Python
sets of strings become duplicate-free lists (`setAdd` inserts only fresh
elements).  Machine `float` percentages are modelled by exact decimal
arithmetic: `round(x, 2)` is embedded as round-half-to-even on the scaled
integer value (the value in hundredths), which agrees with CPython on all
quantities compared against the integral thresholds used by the code.
Recursions that Python drives with `while` loops over indices are embedded
with an explicit fuel argument that is always sufficient, so that every
definition is executable by the kernel.
-/

/-! ## Python string primitives -/

/-- Embedded Python strings: a list of characters. -/
abbrev Str := List Char

/-- Whitespace characters recognised by Python `str.strip()` (ASCII range,
which covers every string the analyzed code strips). -/
def pyIsSpace (c : Char) : Bool :=
  c = ' ' ∨ c = '\t' ∨ c = '\n' ∨ c = '\r' ∨ c = '\x0b' ∨ c = '\x0c'

/-- Python `str.lstrip()` with no argument. -/
def pyLstrip (s : Str) : Str := s.dropWhile pyIsSpace

/-- Python `str.rstrip()` with no argument. -/
def pyRstrip (s : Str) : Str := (s.reverse.dropWhile pyIsSpace).reverse

/-- Python `str.strip()` with no argument. -/
def pyStrip (s : Str) : Str := pyRstrip (pyLstrip s)

/-- Python `str.lstrip(chars)`: drop leading characters belonging to `chars`. -/
def pyLstripChars (chars : List Char) (s : Str) : Str :=
  s.dropWhile (fun c => c ∈ chars)

/-- Line-break characters recognised by Python `str.splitlines()`
(`\r\n` is treated as a single break by `pySplitlines` itself). -/
def pyIsLineBreak (c : Char) : Bool :=
  c = '\n' ∨ c = '\r' ∨ c = '\x0b' ∨ c = '\x0c' ∨
  c = '\x1c' ∨ c = '\x1d' ∨ c = '\x1e' ∨ c = '\x85' ∨
  c = '\u2028' ∨ c = '\u2029'

/-- Worker for `pySplitlines`: `acc` holds the current line reversed. -/
def pySplitlinesGo : List Char → List Char → List Str
  | [], acc => if acc.isEmpty then [] else [acc.reverse]
  | '\r' :: '\n' :: rest, acc => acc.reverse :: pySplitlinesGo rest []
  | c :: rest, acc =>
    if pyIsLineBreak c then acc.reverse :: pySplitlinesGo rest []
    else pySplitlinesGo rest (c :: acc)

/-- Python `str.splitlines()`: no trailing empty line for a trailing break. -/
def pySplitlines (s : Str) : List Str := pySplitlinesGo s []

/-- Python `str.startswith(p)`. -/
def pyStartswith (p s : Str) : Bool := p.isPrefixOf s

/-- First occurrence of `sep` in `s`: `some (before, after)` when `sep`
occurs, mirroring Python `s.split(sep, 1)` when the result has two parts. -/
def splitFirst (sep : Str) : Str → Option (Str × Str)
  | [] => none
  | c :: rest =>
    if sep.isPrefixOf (c :: rest) then some ([], (c :: rest).drop sep.length)
    else (splitFirst sep rest).map (fun ba => (c :: ba.1, ba.2))

/-- Python `sep in s` (substring containment, for non-empty `sep`). -/
def strContains (sep s : Str) : Bool := (splitFirst sep s).isSome

/-- Fueled worker for `pySplit`; the fuel bounds the number of separator
occurrences, so `s.length` is always enough for a non-empty separator. -/
def pySplitFuel (sep : Str) : Nat → Str → List Str
  | 0, s => [s]
  | fuel + 1, s =>
    match splitFirst sep s with
    | none => [s]
    | some (before, after) => before :: pySplitFuel sep fuel after

/-- Python `s.split(sep)` for a non-empty separator. -/
def pySplit (s sep : Str) : List Str := pySplitFuel sep s.length s

/-- Python `sep.join(parts)`. -/
def strJoin (sep : Str) : List Str → Str
  | [] => []
  | [x] => x
  | x :: y :: xs => x ++ sep ++ strJoin sep (y :: xs)

/-- Fueled worker for `pyReplace`. -/
def pyReplaceFuel (pat repl : Str) : Nat → Str → Str
  | 0, s => s
  | fuel + 1, s =>
    match splitFirst pat s with
    | none => s
    | some (before, after) => before ++ repl ++ pyReplaceFuel pat repl fuel after

/-- Python `s.replace(pat, repl)` for a non-empty pattern: replace all
non-overlapping occurrences from the left. -/
def pyReplace (s pat repl : Str) : Str := pyReplaceFuel pat repl s.length s

/-! ## Python dictionaries and sets -/

/-- Python `dict` with string keys: insertion-ordered association list;
all operations keep keys unique. -/
abbrev Dict (α : Type) := List (Str × α)

/-- Python `k in d`. -/
def dictContains (d : Dict α) (k : Str) : Bool := d.any (fun kv => kv.1 == k)

/-- Python `d.get(k)` / `d[k]` as an `Option`. -/
def dictGet? (d : Dict α) (k : Str) : Option α :=
  (d.find? (fun kv => kv.1 == k)).map (·.2)

/-- Python `d.get(k, v₀)`. -/
def dictGetD (d : Dict α) (k : Str) (v₀ : α) : α := (dictGet? d k).getD v₀

/-- Python `d[k] = v`: overwrite in place or append a new entry. -/
def dictInsert (d : Dict α) (k : Str) (v : α) : Dict α :=
  if dictContains d k then d.map (fun kv => if kv.1 == k then (kv.1, v) else kv)
  else d ++ [(k, v)]

/-- In-place update of the value stored at an existing key `k`
(models Python mutating the object stored at `d[k]`). -/
def dictModify (d : Dict α) (k : Str) (f : α → α) : Dict α :=
  d.map (fun kv => if kv.1 == k then (kv.1, f kv.2) else kv)

/-- Python `d.setdefault(k, v)` used for its effect on `d`. -/
def dictSetdefault (d : Dict α) (k : Str) (v : α) : Dict α :=
  if dictContains d k then d else d ++ [(k, v)]

/-- Python `set.add` on a set of strings modelled as a duplicate-free list. -/
def setAdd (s : List Str) (x : Str) : List Str :=
  if s.contains x then s else s ++ [x]

/-! ## Data model (src/models): the fields the analyzed core reads -/

/-- `AttributeInfo` from `src/models/entities.py`. -/
structure AttributeInfo where
  name : Str
  lineno : Nat
  doc : Option Str
deriving DecidableEq, Repr

/-- `FunctionInfo` from `src/models/entities.py`. -/
structure FunctionInfo where
  name : Str
  lineno : Nat
  doc : Option Str
  decorators : List Str := []
deriving DecidableEq, Repr

/-- `ClassInfo` from `src/models/entities.py`. -/
structure ClassInfo where
  name : Str
  lineno : Nat
  doc : Option Str
  decorators : List Str := []
  methods : List FunctionInfo := []
  attributes : List AttributeInfo := []
deriving DecidableEq, Repr

/-- `ModuleMetrics` from `src/models/module.py`. -/
structure ModuleMetrics where
  loc : Nat
  sloc : Nat
  n_classes : Nat
  n_functions : Nat
  n_methods : Nat
deriving DecidableEq, Repr

/-- `ModuleInfo` from `src/models/module.py`. -/
structure ModuleInfo where
  path : Str
  doc : Option Str
  functions : List FunctionInfo
  classes : List ClassInfo
  imports : List Str := []
  metrics : Option ModuleMetrics := none
deriving DecidableEq, Repr

/-! ## Dependency resolver (src/utils/maps.py) -/

/-- Candidate identifiers for one import, from the `while parts:` loop of
`_resolve_imports`: join the segments, then drop the trailing segment,
until no segments remain (most specific candidate first).  The fuel is the
initial number of segments, which the loop consumes one by one. -/
def importCandidatesFuel : Nat → List Str → List Str
  | 0, _ => []
  | _, [] => []
  | fuel + 1, p :: ps =>
    strJoin ".".data (p :: ps) :: importCandidatesFuel fuel (p :: ps).dropLast

/-- Candidate identifiers generated for the segment list of one import. -/
def importCandidates (parts : List Str) : List Str :=
  importCandidatesFuel parts.length parts

/-- The `for candidate in candidates: if candidate in paths: ... break` loop
of `_resolve_imports`: the first candidate present in `paths` wins and its
path set becomes `target_paths`; with no hit the empty set remains. -/
def firstResolvedTargets (paths : Dict (List Str)) : List Str → List Str
  | [] => []
  | c :: cs =>
    if dictContains paths c then dictGetD paths c []
    else firstResolvedTargets paths cs

/-- The `for path in target_paths:` body of `_resolve_imports`: record one
resolved target, skipping empty paths and the importing module itself. -/
def addTarget (src : Str) (d : Dict (List Str)) (p : Str) : Dict (List Str) :=
  if p ≠ [] ∧ p ≠ src then dictModify d src (fun s => setAdd s p) else d

/-- The `for imp in module.imports:` body of `_resolve_imports`: resolve
one import string and record every target it yields. -/
def addImport (paths : Dict (List Str)) (src : Str) (d : Dict (List Str))
    (imp : Str) : Dict (List Str) :=
  let target_paths :=
    firstResolvedTargets paths (importCandidates (pySplit imp ".".data))
  target_paths.foldl (addTarget src) d

/-- The `for module in modules:` body of `_resolve_imports`. -/
def addModuleImports (paths : Dict (List Str)) (d : Dict (List Str))
    (m : ModuleInfo) : Dict (List Str) :=
  m.imports.foldl (addImport paths m.path) d

/-- `_resolve_imports` from `src/utils/maps.py`: build the dependency map.
Each module starts with an empty set (`dep_map = {module.path: set() ...}`);
then for each module's imports the first resolved candidate's paths are
added to the importer's set. -/
def resolve_imports (modules : List ModuleInfo) (paths : Dict (List Str)) :
    Dict (List Str) :=
  let dep_map : Dict (List Str) :=
    modules.foldl (fun d m => dictInsert d m.path []) []
  modules.foldl (addModuleImports paths) dep_map

/-- The `framework == 'csharp'` arm of `_physical_paths` from
`src/utils/maps.py`: imports carrying the `__ns__:` marker are stripped of
the marker and registered as identifiers for the importing module's path. -/
def physical_paths_csharp (modules : List ModuleInfo) : Dict (List Str) :=
  modules.foldl (fun d m =>
    m.imports.foldl (fun d imp =>
      if pyStartswith "__ns__:".data imp then
        let ns := imp.drop ("__ns__:".data).length
        if dictContains d ns then dictModify d ns (fun s => setAdd s m.path)
        else d ++ [(ns, [m.path])]
      else d) d) []

/-! ## Numeric helpers (src/tools/nums.py) -/

/-- Round-half-to-even of the exact rational `a / b` (for `b ≠ 0`), computed
with integer arithmetic: this is the value CPython's `round` produces on the
corresponding float whenever that float is exact, and the model of the
banker's rounding `round(x, decimals)` performs after scaling. -/
def roundHalfEvenDiv (a b : Nat) : Nat :=
  let q := a / b
  let r := a % b
  if 2 * r < b then q
  else if b < 2 * r then q + 1
  else if q % 2 = 0 then q else q + 1

/-- `percentage` from `src/tools/nums.py`, scaled to hundredths of a percent:
`percentage(part, total)` with `decimals = 2` rounds `part / total * 100` to
two decimal places, so the result is an integer number of hundredths; a zero
`total` returns `total` itself, that is `0`.  All call sites pass
non-negative integer counts, hence the `Nat` domain. -/
def percentage_hundredths (part total : Nat) : Nat :=
  if total = 0 then 0
  else roundHalfEvenDiv (part * 10000) total

/-- `percentage` from `src/tools/nums.py` as the rational it denotes; the
final `int(num) if num.is_integer() else num` step of the source changes
only the Python type, never the numeric value. -/
def percentage (part total : Nat) : ℚ :=
  (percentage_hundredths part total : ℚ) / 100

/-! ## Module metrics (src/utils/metrics.py) -/

/-- Per-line accumulator of `_sloc_python`: skip blank lines and lines whose
stripped text starts with `#`, count everything else. -/
def slocPythonLine (count : Nat) (line : Str) : Nat :=
  let stripped := pyStrip line
  if stripped = [] then count
  else if pyStartswith "#".data stripped then count
  else count + 1

/-- `_sloc_python` from `src/utils/metrics.py`. -/
def sloc_python (src : Str) : Nat :=
  (pySplitlines src).foldl slocPythonLine 0

/-- Tail of the `_sloc_csharp` loop body, entered once the block-comment
prologue has resolved `stripped`: line comments are skipped; a line opening
a block comment counts the code before `/*` and, when the block also closes
on the same line, the code after `*/`; any other line counts once.
Returns the updated `(in_block, count)` state. -/
def slocCsharpRest (count : Nat) (stripped : Str) : Bool × Nat :=
  if pyStartswith "//".data stripped then (false, count)
  else
    match splitFirst "/*".data stripped with
    | some ba =>
      let before := pyStrip ba.1
      let count := if before ≠ [] then count + 1 else count
      match splitFirst "*/".data ba.2 with
      | some ba2 =>
        let after2 := pyStrip ba2.2
        (false, if after2 ≠ [] then count + 1 else count)
      | none => (true, count)
    | none => (false, count + 1)

/-- One iteration of the `_sloc_csharp` loop on state `(in_block, count)`. -/
def slocCsharpLine (st : Bool × Nat) (line : Str) : Bool × Nat :=
  let stripped := pyStrip line
  if stripped = [] then st
  else if st.1 then
    match splitFirst "*/".data stripped with
    | some ba =>
      let after := pyStrip ba.2
      if after = [] then (false, st.2)
      else slocCsharpRest st.2 after
    | none => (true, st.2)
  else slocCsharpRest st.2 stripped

/-- `_sloc_csharp` from `src/utils/metrics.py`. -/
def sloc_csharp (src : Str) : Nat :=
  ((pySplitlines src).foldl slocCsharpLine (false, 0)).2

/-- `module_metrics` from `src/utils/metrics.py`: dispatch the SLOC rule on
the framework name, with the blank-line-only fallback for other values. -/
def module_metrics (src : Str) (classes : List ClassInfo)
    (funcs : List FunctionInfo) (framework : Str) : ModuleMetrics :=
  let sloc :=
    if framework = "python".data then sloc_python src
    else if framework = "csharp".data then sloc_csharp src
    else ((pySplitlines src).filter (fun line => pyStrip line ≠ [])).length
  { loc := (pySplitlines src).length
    sloc := sloc
    n_classes := classes.length
    n_functions := funcs.length
    n_methods := (classes.map (fun cls => cls.methods.length)).sum }

/-! ## Insight heuristics (src/renderers/builders/insights.py) -/

/-- One entry of the `module_stats` list produced by `repository_metrics`
in `src/utils/metrics.py`, carrying the keys that `hotspots_modules`
reads: `name`, `sloc`, `n_classes`, `n_methods`, `n_functions`,
`total_items` and `documented_items`. -/
structure ModuleStat where
  name : Str
  sloc : Nat
  n_classes : Nat
  n_methods : Nat
  n_functions : Nat
  total_items : Nat
  documented_items : Nat
deriving DecidableEq, Repr

/-- One entry of the list returned by `hotspots_modules`.  The `percent`
key of the source dictionary is only the decimal rendering of
`num_percent` with a percent sign appended (presentation data recomputed
from `num_percent`), so it is not repeated here; `num_percent` is kept in
hundredths of a percent, see `percentage_hundredths`. -/
structure HotspotCandidate where
  name : Str
  sloc : Nat
  num_percent : Nat
  comment : Str
deriving DecidableEq, Repr

/-- The `comment` list built for one module by `hotspots_modules`: size
message (thresholds 20% and 10%, i.e. 2000 and 1000 hundredths), method
count message (threshold 15), and low-documentation message (threshold
50%, i.e. 5000 hundredths, only when the module has documentable items). -/
def hotspotComment (total : Nat) (st : ModuleStat) : List Str :=
  let sloc_percentage := percentage_hundredths st.sloc total
  let size_comment :=
    if 2000 ≤ sloc_percentage then
      ["Very large module (≥ 20% of total SLOC).".data]
    else if 1000 ≤ sloc_percentage then
      ["Relevant module by size (≥ 10% of total SLOC).".data]
    else []
  let methods_comment :=
    if 15 ≤ st.n_methods then
      ["Many methods (potentially high complexity).".data]
    else []
  let doc_percentage :=
    if st.total_items ≠ 0 then
      percentage_hundredths st.documented_items st.total_items
    else 0
  let doc_comment :=
    if st.total_items ≠ 0 ∧ doc_percentage ≤ 5000 then
      ["Low documentation coverage (≤ 50%).".data]
    else []
  size_comment ++ methods_comment ++ doc_comment

/-- The candidate dictionary appended by `hotspots_modules` for a module
that produced a non-empty comment list. -/
def mkHotspotCandidate (total : Nat) (st : ModuleStat) : HotspotCandidate :=
  { name := st.name
    sloc := st.sloc
    num_percent := percentage_hundredths st.sloc total
    comment := strJoin "\n".data (hotspotComment total st) }

/-- The `for stats in module_stats:` loop of `hotspots_modules`: skip
modules whose own `sloc` is falsy, skip modules with an empty comment
list, append a candidate for the rest. -/
def hotspotCandidates (total : Nat) : List ModuleStat → List HotspotCandidate
  | [] => []
  | st :: rest =>
    if st.sloc = 0 then hotspotCandidates total rest
    else if hotspotComment total st = [] then hotspotCandidates total rest
    else mkHotspotCandidate total st :: hotspotCandidates total rest

/-- Sort order of the final `sorted(..., key=(num_percent, sloc),
reverse=True)` call: descending lexicographic comparison of the pair
`(num_percent, sloc)`. -/
def hotspotGE (a b : HotspotCandidate) : Prop :=
  b.num_percent < a.num_percent ∨
    (b.num_percent = a.num_percent ∧ b.sloc ≤ a.sloc)

instance : DecidableRel hotspotGE := fun a b => by
  unfold hotspotGE; infer_instance

/-- `hotspots_modules` from `src/renderers/builders/insights.py`: with a
zero repository total the empty list is returned; otherwise qualifying
candidates are ranked by SLOC share then absolute SLOC, both descending.
CPython's `sorted` is a stable sort, and a stable sort by a total preorder
has a unique result, so the stable `List.insertionSort` produces exactly
the same list. -/
def hotspots_modules (total : Nat) (module_stats : List ModuleStat) :
    List HotspotCandidate :=
  if total = 0 then []
  else List.insertionSort hotspotGE (hotspotCandidates total module_stats)

/-- Effect of `internal_dependencies` (same file) on its `dep_map`
argument, scanning the value sets as the in-degree loop does: a
destination that is not yet a key of `in_degree` is appended to
`in_degree`, `out_degree` and — the mutation observed by C9 — to
`dep_map` itself via `dep_map.setdefault(dest, set())`.  (When such a
destination exists CPython additionally raises `RuntimeError: dictionary
changed size during iteration` at the next step of the `dep_map.values()`
iterator, after the map has already been mutated; the final `dep_map`
state modelled here is the one observable at that point, and on inputs
with no missing destination the loop runs to completion unchanged.) -/
def inDegreeStep (st : Dict Nat × Dict Nat × Dict (List Str)) (dest : Str) :
    Dict Nat × Dict Nat × Dict (List Str) :=
  match dictGet? st.1 dest with
  | some n => (dictInsert st.1 dest (n + 1), st.2.1, st.2.2)
  | none =>
    (dictInsert st.1 dest 1, dictSetdefault st.2.1 dest 0,
      dictSetdefault st.2.2 dest [])

/-- The two nested `for` loops over `dep_map.values()`, threading the
`(in_degree, out_degree, dep_map)` state through `inDegreeStep`. -/
def inDegreeScan :
    List (List Str) → Dict Nat → Dict Nat → Dict (List Str) →
    Dict Nat × Dict Nat × Dict (List Str)
  | [], inDeg, outDeg, depMap => (inDeg, outDeg, depMap)
  | targets :: rest, inDeg, outDeg, depMap =>
    let st := targets.foldl inDegreeStep (inDeg, outDeg, depMap)
    inDegreeScan rest st.1 st.2.1 st.2.2

/-- The `dep_map` argument of `internal_dependencies` as it stands after
the call: an empty map takes the early-return branch untouched; otherwise
`out_degree` and `in_degree` are initialised from the keys and the
in-degree loop above runs.  The rest of the function only reads. -/
def internal_dependencies_dep_map (depMap : Dict (List Str)) :
    Dict (List Str) :=
  if depMap = [] then depMap
  else
    let modules := depMap.map (fun kv => kv.1)
    let outDeg : Dict Nat :=
      modules.map (fun m => (m, (dictGetD depMap m []).length))
    let inDeg : Dict Nat := modules.map (fun m => (m, 0))
    (inDegreeScan (depMap.map (fun kv => kv.2)) inDeg outDeg depMap).2.2

/-! ## Cosmetic fixers (src/tools/fixers.py) -/

/-- `fix_bullets` from `src/tools/fixers.py`: normalise every line
beginning (after leading whitespace) with `- ` or `* ` to a `- ` bullet. -/
def fix_bullets (txt : Str) : Str :=
  if txt = [] then txt
  else
    strJoin "\n".data ((pySplitlines txt).map (fun line =>
      let stripped := pyLstrip line
      if pyStartswith "- ".data stripped ∨ pyStartswith "* ".data stripped then
        "- ".data ++ pyStrip (stripped.drop 2)
      else line))

/-- `fix_asterisk` from `src/tools/fixers.py`: delete every asterisk. -/
def fix_asterisk (txt : Str) : Str :=
  if txt = [] then txt
  else pyReplace txt "*".data []

/-! ## Docstring normalisation (src/analyzers/python.py) -/

/-- The `SECTIONS` header tuple of `src/analyzers/python.py`. -/
def SECTIONS : List Str := ["Args:".data, "Arguments:".data, "Parameters:".data]

/-- The `RETURNS` header tuple of `src/analyzers/python.py`. -/
def RETURNS : List Str := ["Returns:".data, "Return:".data]

/-- The `RAISES` header tuple of `src/analyzers/python.py`. -/
def RAISES : List Str :=
  ["Raises:".data, "Raise:".data, "Exceptions:".data, "Exception:".data]

/-- The `headers_map` dictionary built inside `_normalize_document`,
as a lookup: every recognised section header is rewritten to one of the
three canonical emphasised headers. -/
def headersMap (s : Str) : Option Str :=
  if s ∈ SECTIONS then some "*Args:*".data
  else if s ∈ RETURNS then some "*Returns:*".data
  else if s ∈ RAISES then some "*Raises:*".data
  else none

/-- Worker for `pyExpandtabs`, tracking the current column; CPython resets
the column at `\n` and `\r` and advances every other character by one. -/
def pyExpandtabsGo : List Char → Nat → List Char
  | [], _ => []
  | c :: rest, col =>
    if c = '\t' then
      let pad := 8 - col % 8
      List.replicate pad ' ' ++ pyExpandtabsGo rest (col + pad)
    else if c = '\n' ∨ c = '\r' then c :: pyExpandtabsGo rest 0
    else c :: pyExpandtabsGo rest (col + 1)

/-- Python `str.expandtabs()` with the default tab size of 8. -/
def pyExpandtabs (s : Str) : Str := pyExpandtabsGo s 0

/-- The margin computation of `inspect.cleandoc`: the minimum indentation
over the non-blank lines after the first one, `none` standing for the
`sys.maxsize` sentinel that means "no such line". -/
def cleandocMargin (lines : List Str) : Option Nat :=
  lines.foldl (fun margin line =>
    let content := (pyLstrip line).length
    if content = 0 then margin
    else
      let indent := line.length - content
      match margin with
      | none => some indent
      | some m => some (min m indent)) none

/-- CPython `inspect.cleandoc`: expand tabs, split on `\n`, strip the
first line's leading whitespace, drop the common margin from the other
lines, and remove leading and trailing blank lines. -/
def cleandoc (doc : Str) : Str :=
  let lines := pySplit (pyExpandtabs doc) "\n".data
  let margin := cleandocMargin lines.tail
  let lines : List Str :=
    match lines with
    | [] => []
    | l0 :: rest =>
      pyLstrip l0 ::
        (match margin with
         | none => rest
         | some m => rest.map (fun line => List.drop m line))
  let lines := (lines.reverse.dropWhile (fun line => line = [])).reverse
  let lines := lines.dropWhile (fun line => line = [])
  strJoin "\n".data lines

/-- The `re.match(r'\s*([^:]+):\s*(.*)', cursor)` step of
`_format_block_text`, reduced to the data the caller keeps: the regex
matches exactly when a colon occurs after at least one character, and
since both captured groups are immediately stripped, the kept values are
the stripped text before and after the first colon. -/
def matchNameColon (cursor : Str) : Option (Str × Str) :=
  match splitFirst ":".data cursor with
  | none => none
  | some ba => if ba.1 = [] then none else some (pyStrip ba.1, pyStrip ba.2)

/-- The loop condition of the block scanner in `_format_block_text`:
the line is indented by four spaces or a tab, or is blank. -/
def blockLineCond (line : Str) : Bool :=
  pyStartswith "    ".data line ∨ pyStartswith "\t".data line ∨
    pyStrip line = []

/-- The inner `while jdx < num_lines:` scan of `_format_block_text` that
collects continuation lines more indented than the current item.  Returns
the final `jdx` (absolute, like the Python index) and the collected
stripped lines; the fuel dominates the number of iterations. -/
def formatBlockExtra (lines : List Str) (numLines indent : Nat) :
    Nat → Nat → Nat × List Str
  | 0, jdx => (jdx, [])
  | fuel + 1, jdx =>
    if jdx < numLines then
      let nxt := lines.getD jdx []
      if pyStrip nxt = [] then formatBlockExtra lines numLines indent fuel (jdx + 1)
      else
        let nxt_indent := nxt.length - (pyLstrip nxt).length
        if nxt_indent ≤ indent then (jdx, [])
        else
          let r := formatBlockExtra lines numLines indent fuel (jdx + 1)
          (r.1, pyStrip nxt :: r.2)
    else (jdx, [])

/-- `_format_block_text` from `src/analyzers/python.py`: consume the
indented (or blank) block after a section header, emitting one `- ` bullet
per item; `name: description` lines absorb the more-indented continuation
lines that follow them.  Returns the new absolute line index and the
items; the fuel dominates the number of loop iterations. -/
def formatBlockText (lines : List Str) (numLines : Nat) :
    Nat → Nat → Nat × List Str
  | 0, idx => (idx, [])
  | fuel + 1, idx =>
    if idx < numLines ∧ blockLineCond (lines.getD idx []) then
      let cursor := lines.getD idx []
      if pyStrip cursor = [] then formatBlockText lines numLines fuel (idx + 1)
      else
        let indent := cursor.length - (pyLstrip cursor).length
        match matchNameColon cursor with
        | some nd =>
          let r := formatBlockExtra lines numLines indent (numLines + 1) (idx + 1)
          let desc :=
            if r.2 ≠ [] then
              pyStrip (nd.2 ++ " ".data ++ strJoin " ".data r.2)
            else nd.2
          let item :=
            "- ".data ++ nd.1 ++ ": ".data ++ pyReplace desc "- ".data []
          let rest := formatBlockText lines numLines fuel r.1
          (rest.1, item :: rest.2)
        | none =>
          let item :=
            "- ".data ++ pyReplace (pyStrip cursor) "- ".data []
          let rest := formatBlockText lines numLines fuel (idx + 1)
          (rest.1, item :: rest.2)
    else (idx, [])

/-- The main `while idx < num_lines:` loop of `_normalize_document`:
recognised section headers are replaced by their canonical form followed
by the formatted block and a blank separator; all other lines go through
`fix_bullets` and `fix_asterisk`.  The fuel dominates the number of
iterations (each one advances the index by at least one). -/
def normalizeLoop (lines : List Str) (numLines : Nat) :
    Nat → Nat → List Str
  | 0, _ => []
  | fuel + 1, idx =>
    if idx < numLines then
      let line := lines.getD idx []
      let stripped := pyStrip line
      match headersMap stripped with
      | some header =>
        let r := formatBlockText lines numLines (numLines + 1) (idx + 1)
        header :: r.2 ++ [[]] ++ normalizeLoop lines numLines fuel r.1
      | none =>
        fix_asterisk (fix_bullets line) :: normalizeLoop lines numLines fuel (idx + 1)
    else []

/-- `_normalize_document` from `src/analyzers/python.py`: a falsy
docstring is returned as is; otherwise the text is cleaned with
`inspect.cleandoc`, processed line by line and re-joined. -/
def normalize_document (doc : Option Str) : Option Str :=
  match doc with
  | none => none
  | some d =>
    if d = [] then some d
    else
      let txt := cleandoc d
      let lines := pySplitlines txt
      let num_lines := lines.length
      some (strJoin "\n".data (normalizeLoop lines num_lines (num_lines + 1) 0))

/-! ## C# analyzer (src/analyzers/csharp.py) -/

/-- Characters of the `[A-Za-z0-9_.]` class in `USING_RE`. -/
def isUsingNameChar (c : Char) : Bool :=
  ('a' ≤ c ∧ c ≤ 'z') ∨ ('A' ≤ c ∧ c ≤ 'Z') ∨ ('0' ≤ c ∧ c ≤ '9') ∨
    c = '_' ∨ c = '.'

/-- Whitespace class `\s` of the `re` module (ASCII range). -/
def isReSpace (c : Char) : Bool :=
  c = ' ' ∨ c = '\t' ∨ c = '\n' ∨ c = '\r' ∨ c = '\x0b' ∨ c = '\x0c'

/-- A match of `USING_RE = ^\s*using\s+([A-Za-z0-9_.]+)\s*;` starting at a
line start whose remainder of the file is `cs`: returns the captured
namespace.  The pattern needs no backtracking: the name class excludes
both whitespace and `;`. -/
def matchUsing (cs : Str) : Option Str :=
  let cs := cs.dropWhile isReSpace
  if "using ".data.isPrefixOf cs ∨ "using\t".data.isPrefixOf cs ∨
      "using\n".data.isPrefixOf cs ∨ "using\r".data.isPrefixOf cs ∨
      "using\x0b".data.isPrefixOf cs ∨ "using\x0c".data.isPrefixOf cs then
    let rest := (cs.drop 5).dropWhile isReSpace
    let name := rest.takeWhile isUsingNameChar
    let rest := (rest.dropWhile isUsingNameChar).dropWhile isReSpace
    if name ≠ [] ∧ rest.head? = some ';' then some name else none
  else none

/-- Every suffix of `src` that starts at a line start (position `0` or the
position following a `\n`): the positions at which the `re.MULTILINE`
anchor `^` lets `finditer` start a match. -/
def lineStartSuffixes : Str → List Str
  | [] => []
  | '\n' :: rest => rest :: lineStartSuffixes rest
  | _ :: rest => lineStartSuffixes rest

/-- Python `<` on strings: lexicographic comparison by code point. -/
def pyStrLt : Str → Str → Bool
  | [], [] => false
  | [], _ :: _ => true
  | _ :: _, [] => false
  | a :: as_, b :: bs => if a = b then pyStrLt as_ bs else decide (a < b)

/-- Python `sorted` over a collection of distinct strings (ascending). -/
def pySortedStrs (xs : List Str) : List Str :=
  List.insertionSort (fun a b => pyStrLt a b = true ∨ a = b) xs

/-- `_collect_usings` from `src/analyzers/csharp.py`: the deduplicated,
sorted namespaces captured by `USING_RE.finditer(src)`.  Every `finditer`
match starts at a `^` anchor position; a skipped overlapping candidate can
only be the whitespace-prefix tail of the same match, which captures the
same namespace, so scanning every line-start suffix yields the same set. -/
def collect_usings (src : Str) : List Str :=
  pySortedStrs (((src :: lineStartSuffixes src).filterMap matchUsing).dedup)

/-- The argument of one documentation tag extracted by `_collect_xml_doc`:
the relevant attribute of the element (`name` for parameter tags, `cref`
for exception tags) and the flattened text `_xml_node_to_text` returns
for it. -/
structure XmlDocTag where
  attrib : Str
  text : Str
deriving DecidableEq, Repr

/-- The tag content `_collect_xml_doc` extracts from the parsed XML root:
the `<summary>` text, the `<param>` tags, the `<returns>` text and the
`<exception>` tags, each text already flattened by `_xml_node_to_text`.
The upstream XML parsing (`ET.fromstring` on the wrapped buffer) is the
stdlib's; this embedding covers the rendering the analyzer performs on
its result, lines 268-326 of `src/analyzers/csharp.py`. -/
structure XmlDocParts where
  summary : Option Str
  params : List XmlDocTag
  returns : Option Str
  exceptions : List XmlDocTag
deriving DecidableEq, Repr

/-- The section rendering of `_collect_xml_doc`: summary text, a
`*Params:*` section of `- name: text` bullets, a `*Returns:*` section,
and an `*Exceptions:*` section of `- cref: text` bullets with the
`T:`-prefix characters stripped from the identifier; trailing blank lines
are removed and the parts are joined with newlines. -/
def renderXmlDoc (p : XmlDocParts) : Str :=
  let summary_parts : List Str :=
    match p.summary with
    | none => []
    | some s =>
      let txts := pyStrip s
      if txts ≠ [] then [txts, []] else []
  let param_parts : List Str :=
    if p.params ≠ [] then
      "*Params:*".data ::
        p.params.map (fun tag =>
          let name := pyStrip tag.attrib
          let textp := pyStrip tag.text
          if name ≠ [] then "- ".data ++ name ++ ": ".data ++ textp
          else "- ".data ++ textp) ++ [[]]
    else []
  let returns_parts : List Str :=
    match p.returns with
    | none => []
    | some r =>
      let txtr := pyStrip r
      if txtr ≠ [] then
        ["*Returns:*".data, "- ".data ++ pyReplace txtr "- ".data [], []]
      else []
  let exception_parts : List Str :=
    if p.exceptions ≠ [] then
      "*Exceptions:*".data ::
        p.exceptions.map (fun tag =>
          let cref := pyLstripChars "T:".data (pyStrip tag.attrib)
          let texte := pyStrip tag.text
          if cref ≠ [] then "- ".data ++ cref ++ ": ".data ++ texte
          else "- ".data ++ texte) ++ [[]]
    else []
  let parts := summary_parts ++ param_parts ++ returns_parts ++ exception_parts
  let parts := (parts.reverse.dropWhile (fun line => line = [])).reverse
  strJoin "\n".data parts

/-! ## Concrete scenario data used by the theorems -/

/-- Module `A` of the mutual-import scenario: an indentation-language
module importing `pkg.b`. -/
def moduleA : ModuleInfo :=
  { path := "/repo/pkg/a.py".data, doc := none, functions := [], classes := []
    imports := ["pkg.b".data] }

/-- Module `B` of the mutual-import scenario: imports `pkg.a`. -/
def moduleB : ModuleInfo :=
  { path := "/repo/pkg/b.py".data, doc := none, functions := [], classes := []
    imports := ["pkg.a".data] }

/-- Identifier lookup for the mutual-import scenario, as `_physical_paths`
would build it for the two modules. -/
def mutualPaths : Dict (List Str) :=
  [("pkg.a".data, [moduleA.path]), ("pkg.b".data, [moduleB.path])]

/-- A module-stat record with fifteen methods but a zero `sloc` field. -/
def statManyMethods : ModuleStat :=
  { name := "m".data, sloc := 0, n_classes := 0, n_methods := 15
    n_functions := 0, total_items := 0, documented_items := 0 }

/-- A fully documented module-stat record holding half the repository
SLOC (a size-qualified hotspot when the total is 10). -/
def statLarge : ModuleStat :=
  { name := "big".data, sloc := 5, n_classes := 1, n_methods := 2
    n_functions := 0, total_items := 2, documented_items := 2 }

/-- Documentation-tag content of the C7 comparison: one summary, one
parameter `x`, a return value and one exception `T:E`. -/
def xmlDocExample : XmlDocParts :=
  { summary := some "Sum".data
    params := [{ attrib := "x".data, text := "d".data }]
    returns := some "r".data
    exceptions := [{ attrib := "T:E".data, text := "t".data }] }

/-- The indentation-language docstring carrying the same content as
`xmlDocExample` in the dialect of §4.2. -/
def pyDocExample : Str :=
  "Sum\n\nArgs:\n    x: d\n\nReturns:\n    r\n\nRaises:\n    E: t".data

/-- A C# source with three `using` statements, one duplicated. -/
def csUsingExample : Str :=
  "using System.Text;\nusing System;\nusing System.Text;\n\nnamespace Demo\n".data

/-- The module the C# analyzer produces for `csUsingExample` (only the
fields the dependency resolver reads). -/
def csModuleExample : ModuleInfo :=
  { path := "/repo/Demo/File.cs".data, doc := none, functions := []
    classes := [], imports := collect_usings csUsingExample }

/-- Qualification predicate of the hotspot claim, in the amended form the
code satisfies: the module's own SLOC is non-zero, and it is large
(share ≥ 10%, i.e. ≥ 1000 hundredths), or it has at least 15 methods, or
it has documentable items with coverage at most 50%. -/
def hotspotQualifies (total : Nat) (st : ModuleStat) : Prop :=
  1000 ≤ percentage_hundredths st.sloc total ∨ 15 ≤ st.n_methods ∨
    (st.total_items ≠ 0 ∧
      percentage_hundredths st.documented_items st.total_items ≤ 5000)

instance (total : Nat) (st : ModuleStat) :
    Decidable (hotspotQualifies total st) := by
  unfold hotspotQualifies; infer_instance

instance : IsTotal HotspotCandidate hotspotGE where
  total a b := by unfold hotspotGE; omega

instance : IsTrans HotspotCandidate hotspotGE where
  trans a b c hab hbc := by unfold hotspotGE at *; omega

/-- The canonical text lines the brace-delimited parser's documentation
extraction produces for `xmlDocExample`. -/
def csDocLines : List Str := pySplitlines (renderXmlDoc xmlDocExample)

/-- The canonical text lines the indentation-delimited normaliser
produces for `pyDocExample`. -/
def pyDocLines : List Str :=
  pySplitlines ((normalize_document (some pyDocExample)).getD [])

/-! ## Helper lemmas: dictionaries -/

theorem foldl_preserve {β γ : Type _} (P : γ → Prop) (f : γ → β → γ)
    (l : List β) (d : γ) (h0 : P d)
    (hstep : ∀ d b, b ∈ l → P d → P (f d b)) : P (l.foldl f d) := by
  induction l generalizing d with
  | nil => exact h0
  | cons b bs ih =>
    exact ih (f d b) (hstep d b (List.mem_cons_self b bs) h0)
      (fun d' b' hb' => hstep d' b' (List.mem_cons_of_mem b hb'))

theorem dictContains_map_fst {α : Type _} (d : Dict α) (x : Str)
    (g : Str × α → Str × α) (hg : ∀ kv, (g kv).1 = kv.1) :
    dictContains (d.map g) x = dictContains d x := by
  induction d with
  | nil => rfl
  | cons kv d ih =>
    simp only [List.map_cons, dictContains, List.any_cons] at *
    rw [hg kv, ih]

theorem dictContains_dictModify {α : Type _} (d : Dict α) (k x : Str)
    (f : α → α) : dictContains (dictModify d k f) x = dictContains d x := by
  apply dictContains_map_fst
  intro kv
  by_cases h : kv.1 == k <;> simp [h]

theorem dictContains_dictInsert {α : Type _} (d : Dict α) (k x : Str)
    (v : α) :
    dictContains (dictInsert d k v) x = (dictContains d x || k == x) := by
  unfold dictInsert
  by_cases h : dictContains d k
  · rw [if_pos h, dictContains_map_fst]
    · by_cases hkx : (k == x) = true
      · have hx : k = x := by simpa using hkx
        subst hx
        simp [h]
      · simp [hkx]
    · intro kv
      by_cases hk : kv.1 == k <;> simp [hk]
  · rw [if_neg h]
    simp [dictContains, List.any_append]

theorem dictGet?_isSome {α : Type _} (d : Dict α) (k : Str) :
    (dictGet? d k).isSome = dictContains d k := by
  induction d with
  | nil => rfl
  | cons kv d ih =>
    simp only [dictGet?, dictContains, List.find?, List.any_cons] at *
    by_cases h : kv.1 == k <;> simp [h, ih]

theorem dictGetD_of_get? {α : Type _} (d : Dict α) (k : Str) (v : α)
    (v₀ : α) (h : dictGet? d k = some v) : dictGetD d k v₀ = v := by
  simp [dictGetD, h]

/-! ## Helper lemmas: the dependency resolver -/

theorem dictContains_addTarget (src : Str) (d : Dict (List Str)) (p x : Str) :
    dictContains (addTarget src d p) x = dictContains d x := by
  unfold addTarget
  split
  · exact dictContains_dictModify d src x _
  · rfl

theorem dictContains_addImport (paths : Dict (List Str)) (src : Str)
    (d : Dict (List Str)) (imp x : Str) :
    dictContains (addImport paths src d imp) x = dictContains d x := by
  unfold addImport
  apply foldl_preserve (fun d' => dictContains d' x = dictContains d x)
  · rfl
  · intro d' p _ hp
    rw [dictContains_addTarget, hp]

theorem dictContains_addModuleImports (paths : Dict (List Str))
    (d : Dict (List Str)) (m : ModuleInfo) (x : Str) :
    dictContains (addModuleImports paths d m) x = dictContains d x := by
  unfold addModuleImports
  apply foldl_preserve (fun d' => dictContains d' x = dictContains d x)
  · rfl
  · intro d' imp _ hp
    rw [dictContains_addImport, hp]

theorem dictContains_initMap (modules : List ModuleInfo)
    (d : Dict (List Str)) (m : ModuleInfo)
    (h : m ∈ modules ∨ dictContains d m.path = true) :
    dictContains (modules.foldl (fun d mm => dictInsert d mm.path []) d)
      m.path = true := by
  induction modules generalizing d with
  | nil =>
    rcases h with h | h
    · cases h
    · exact h
  | cons m' ms ih =>
    apply ih
    rcases h with h | h
    · rcases List.mem_cons.mp h with rfl | h
      · right
        rw [dictContains_dictInsert]
        simp
      · left
        exact h
    · right
      rw [dictContains_dictInsert, h]
      simp

/-- The no-self-edge invariant of the dependency map: no value set
contains its own key. -/
def depInv (d : Dict (List Str)) : Prop :=
  ∀ kv ∈ d, kv.2.contains kv.1 = false

theorem depInv_dictInsert_nil (d : Dict (List Str)) (k : Str)
    (h : depInv d) : depInv (dictInsert d k []) := by
  intro kv hkv
  unfold dictInsert at hkv
  split at hkv
  · rcases List.mem_map.mp hkv with ⟨kv', h1, h2⟩
    by_cases hb : kv'.1 == k
    · rw [if_pos hb] at h2
      subst h2
      rfl
    · rw [if_neg hb] at h2
      subst h2
      exact h kv' h1
  · rcases List.mem_append.mp hkv with h1 | h1
    · exact h kv h1
    · rcases List.mem_singleton.mp h1 with rfl
      rfl

theorem contains_setAdd (s : List Str) (p x : Str) :
    (setAdd s p).contains x = (s.contains x || p == x) := by
  unfold setAdd
  by_cases hp : s.contains p = true
  · rw [if_pos hp]
    by_cases hpx : (p == x) = true
    · have hpx' : p = x := by simpa using hpx
      subst hpx'
      simp [List.mem_of_elem_eq_true hp]
    · simp [hpx]
  · rw [if_neg hp]
    by_cases hx : x ∈ s
    · have h1 : s.contains x = true := List.elem_eq_true_of_mem hx
      have h2 : (s ++ [p]).contains x = true :=
        List.elem_eq_true_of_mem (List.mem_append.mpr (Or.inl hx))
      rw [h1, h2, Bool.true_or]
    · have h1 : s.contains x = false := by
        cases hcx : s.contains x
        · rfl
        · exact absurd (List.mem_of_elem_eq_true hcx) hx
      by_cases hpx : p = x
      · subst hpx
        have h2 : (s ++ [p]).contains p = true :=
          List.elem_eq_true_of_mem (List.mem_append.mpr (Or.inr (List.mem_singleton.mpr rfl)))
        simp [h1, h2]
      · have h2 : (s ++ [p]).contains x = false := by
          cases hcx : (s ++ [p]).contains x
          · rfl
          · rcases List.mem_append.mp (List.mem_of_elem_eq_true hcx) with hmem | hmem
            · exact absurd hmem hx
            · exact absurd (List.mem_singleton.mp hmem).symm hpx
        have h3 : (p == x) = false := by simpa using hpx
        simp [h1, h2, h3]
        intro hxp
        exact absurd hxp.symm hpx

theorem depInv_addTarget (src : Str) (d : Dict (List Str)) (p : Str)
    (h : depInv d) : depInv (addTarget src d p) := by
  unfold addTarget
  split
  · next hguard =>
    intro kv hkv
    rcases List.mem_map.mp hkv with ⟨kv', h1, h2⟩
    by_cases hb : kv'.1 == src
    · rw [if_pos hb] at h2
      subst h2
      have hsrc : kv'.1 = src := by simpa using hb
      rw [contains_setAdd, h kv' h1, Bool.false_or]
      simp only [beq_eq_false_iff_ne, ne_eq]
      rw [hsrc]
      exact hguard.2
    · rw [if_neg hb] at h2
      subst h2
      exact h kv' h1
  · exact h

theorem depInv_addImport (paths : Dict (List Str)) (src : Str)
    (d : Dict (List Str)) (imp : Str) (h : depInv d) :
    depInv (addImport paths src d imp) := by
  unfold addImport
  exact foldl_preserve depInv _ _ d h (fun d' p _ hp => depInv_addTarget src d' p hp)

theorem depInv_addModuleImports (paths : Dict (List Str))
    (d : Dict (List Str)) (m : ModuleInfo) (h : depInv d) :
    depInv (addModuleImports paths d m) := by
  unfold addModuleImports
  exact foldl_preserve depInv _ _ d h
    (fun d' imp _ hp => depInv_addImport paths m.path d' imp hp)

theorem depInv_initMap (modules : List ModuleInfo) :
    depInv (modules.foldl (fun d mm => dictInsert d mm.path []) []) := by
  apply foldl_preserve depInv
  · intro kv hkv
    cases hkv
  · exact fun d mm _ hp => depInv_dictInsert_nil d mm.path hp

theorem depInv_resolve_imports (modules : List ModuleInfo)
    (paths : Dict (List Str)) : depInv (resolve_imports modules paths) := by
  unfold resolve_imports
  exact foldl_preserve depInv _ _ _ (depInv_initMap modules)
    (fun d m _ hp => depInv_addModuleImports paths d m hp)

theorem contains_resolve_imports (modules : List ModuleInfo)
    (paths : Dict (List Str)) (m : ModuleInfo) (hm : m ∈ modules) :
    dictContains (resolve_imports modules paths) m.path = true := by
  unfold resolve_imports
  apply foldl_preserve (fun d => dictContains d m.path = true)
  · exact dictContains_initMap modules [] m (Or.inl hm)
  · intro d mm _ hp
    rw [dictContains_addModuleImports, hp]

/-! ## Claim theorems -/

/-- C1: the dependency map built by `_resolve_imports` has an entry for
every module of the input list (possibly with an empty set), no entry's
value set contains its own key, and in the concrete mutual-import
scenario both directed edges appear while neither module gains a
self-edge. -/
theorem resolve_imports_graph_invariants :
    (∀ (modules : List ModuleInfo) (paths : Dict (List Str))
        (m : ModuleInfo), m ∈ modules →
        dictContains (resolve_imports modules paths) m.path = true)
    ∧ (∀ (modules : List ModuleInfo) (paths : Dict (List Str))
        (kv : Str × List Str), kv ∈ resolve_imports modules paths →
        kv.2.contains kv.1 = false)
    ∧ resolve_imports [moduleA, moduleB] mutualPaths =
        [(moduleA.path, [moduleB.path]), (moduleB.path, [moduleA.path])] :=
  ⟨fun modules paths m hm => contains_resolve_imports modules paths m hm,
   fun modules paths kv hkv => depInv_resolve_imports modules paths kv hkv,
   by decide⟩

/-- Witness for C1 at the mutual-import scenario: module `A` owns an
entry of the resolved map, and the concrete entry mapping `a.py` to the
one-element set holding `b.py` contains no self-edge. -/
theorem resolve_imports_graph_invariants_witness :
    dictContains (resolve_imports [moduleA, moduleB] mutualPaths)
      moduleA.path = true
    ∧ ((moduleA.path, [moduleB.path]) : Str × List Str).2.contains
        moduleA.path = false :=
  ⟨resolve_imports_graph_invariants.1 [moduleA, moduleB] mutualPaths moduleA
      (by decide),
   resolve_imports_graph_invariants.2.1 [moduleA, moduleB] mutualPaths
      (moduleA.path, [moduleB.path]) (by decide)⟩

/-- C3: for the import `pkg.sub.Thing`, when the lookup has no entry for
the full import but has entries for both `pkg.sub` and `pkg`, the
resolver's first-hit-wins scan over the progressively shortened
candidates returns exactly the paths mapped to the more specific
identifier `pkg.sub`. -/
theorem resolver_prefers_specific (paths : Dict (List Str))
    (S T : List Str)
    (hfull : dictGet? paths "pkg.sub.Thing".data = none)
    (hsub : dictGet? paths "pkg.sub".data = some S)
    (_hpkg : dictGet? paths "pkg".data = some T) :
    firstResolvedTargets paths
      (importCandidates (pySplit "pkg.sub.Thing".data ".".data)) = S := by
  have hc : importCandidates (pySplit "pkg.sub.Thing".data ".".data) =
      ["pkg.sub.Thing".data, "pkg.sub".data, "pkg".data] := by decide
  rw [hc]
  unfold firstResolvedTargets
  have h1 : dictContains paths "pkg.sub.Thing".data = false := by
    rw [← dictGet?_isSome, hfull]
    rfl
  have h2 : dictContains paths "pkg.sub".data = true := by
    rw [← dictGet?_isSome, hsub]
    rfl
  rw [h1]
  simp only [Bool.false_eq_true, if_false]
  unfold firstResolvedTargets
  rw [h2]
  simp only [if_true]
  exact dictGetD_of_get? paths "pkg.sub".data S [] hsub

/-- Witness for C3: a concrete lookup carrying `pkg.sub` and `pkg`. -/
theorem resolver_prefers_specific_witness :
    firstResolvedTargets
      [("pkg.sub".data, ["/repo/pkg/sub.py".data]),
       ("pkg".data, ["/repo/pkg.py".data])]
      (importCandidates (pySplit "pkg.sub.Thing".data ".".data)) =
      ["/repo/pkg/sub.py".data] :=
  resolver_prefers_specific
    [("pkg.sub".data, ["/repo/pkg/sub.py".data]),
     ("pkg".data, ["/repo/pkg.py".data])]
    ["/repo/pkg/sub.py".data] ["/repo/pkg.py".data]
    (by decide) (by decide) (by decide)

/-- C2 (documents the divergence): `sloc(m) ≤ loc(m)` fails on the code
for the brace-delimited language: on the one-line source
`int a; /* c */ int b;` the rule of `_sloc_csharp` counts the code before
`/*` and the code after `*/` as two separate meaningful lines, so
`module_metrics` reports `sloc = 2` against `loc = 1`. -/
theorem sloc_csharp_exceeds_loc :
    (module_metrics "int a; /* c */ int b;".data [] [] "csharp".data).sloc = 2
    ∧ (module_metrics "int a; /* c */ int b;".data [] [] "csharp".data).loc = 1
    ∧ ¬ ((module_metrics "int a; /* c */ int b;".data [] [] "csharp".data).sloc ≤
        (module_metrics "int a; /* c */ int b;".data [] [] "csharp".data).loc) := by
  refine ⟨by decide, by decide, by decide⟩

/-- C4: `percentage(x, 0) = 0` for every count `x`; `percentage(0, n) = 0`
and `percentage(n, n) = 100` for every `n > 0` (at `n = 0` the
zero-denominator clause takes precedence and both expressions are `0`). -/
theorem percentage_spec :
    (∀ x : Nat, percentage x 0 = 0)
    ∧ (∀ n : Nat, 0 < n → percentage 0 n = 0)
    ∧ (∀ n : Nat, 0 < n → percentage n n = 100) := by
  refine ⟨fun x => ?_, fun n hn => ?_, fun n hn => ?_⟩
  · simp [percentage, percentage_hundredths]
  · have hn' : n ≠ 0 := Nat.pos_iff_ne_zero.mp hn
    have h : percentage_hundredths 0 n = 0 := by
      simp only [percentage_hundredths, if_neg hn', roundHalfEvenDiv]
      simp [Nat.zero_div, Nat.zero_mod, hn]
    simp [percentage, h]
  · have hn' : n ≠ 0 := Nat.pos_iff_ne_zero.mp hn
    have h : percentage_hundredths n n = 10000 := by
      simp only [percentage_hundredths, if_neg hn', roundHalfEvenDiv]
      rw [Nat.mul_div_cancel_left 10000 hn, Nat.mul_mod_right]
      simp [hn]
    rw [percentage, h]
    norm_num

/-- Witness for C4 at `x = 7` and `n = 3`. -/
theorem percentage_spec_witness :
    percentage 7 0 = 0 ∧ percentage 0 3 = 0 ∧ percentage 3 3 = 100 :=
  ⟨percentage_spec.1 7, percentage_spec.2.1 3 (by decide),
   percentage_spec.2.2 3 (by decide)⟩

/-! ## Helper lemmas: hotspots -/

theorem mem_hotspotCandidates (total : Nat) (stats : List ModuleStat)
    (c : HotspotCandidate) :
    c ∈ hotspotCandidates total stats ↔
      ∃ st, st ∈ stats ∧ st.sloc ≠ 0 ∧ hotspotComment total st ≠ [] ∧
        c = mkHotspotCandidate total st := by
  induction stats with
  | nil => simp [hotspotCandidates]
  | cons st rest ih =>
    unfold hotspotCandidates
    by_cases h0 : st.sloc = 0
    · rw [if_pos h0, ih]
      constructor
      · rintro ⟨st', h1, h2, h3, h4⟩
        exact ⟨st', List.mem_cons_of_mem st h1, h2, h3, h4⟩
      · rintro ⟨st', h1, h2, h3, h4⟩
        rcases List.mem_cons.mp h1 with rfl | h1
        · exact absurd h0 h2
        · exact ⟨st', h1, h2, h3, h4⟩
    · rw [if_neg h0]
      by_cases hc : hotspotComment total st = []
      · rw [if_pos hc, ih]
        constructor
        · rintro ⟨st', h1, h2, h3, h4⟩
          exact ⟨st', List.mem_cons_of_mem st h1, h2, h3, h4⟩
        · rintro ⟨st', h1, h2, h3, h4⟩
          rcases List.mem_cons.mp h1 with rfl | h1
          · exact absurd hc h3
          · exact ⟨st', h1, h2, h3, h4⟩
      · rw [if_neg hc]
        constructor
        · intro hmem
          rcases List.mem_cons.mp hmem with rfl | hmem
          · exact ⟨st, List.mem_cons_self st rest, h0, hc, rfl⟩
          · rcases ih.mp hmem with ⟨st', h1, h2, h3, h4⟩
            exact ⟨st', List.mem_cons_of_mem st h1, h2, h3, h4⟩
        · rintro ⟨st', h1, h2, h3, h4⟩
          rcases List.mem_cons.mp h1 with rfl | h1
          · subst h4
            exact List.mem_cons_self _ _
          · exact List.mem_cons_of_mem _ (ih.mpr ⟨st', h1, h2, h3, h4⟩)

theorem hotspotComment_eq_nil_iff (total : Nat) (st : ModuleStat) :
    hotspotComment total st = [] ↔ ¬ hotspotQualifies total st := by
  unfold hotspotComment hotspotQualifies
  by_cases h20 : 2000 ≤ percentage_hundredths st.sloc total
  · have h10 : 1000 ≤ percentage_hundredths st.sloc total := by omega
    simp [h20, h10]
  · by_cases h10 : 1000 ≤ percentage_hundredths st.sloc total
    · simp [h20, h10]
    · by_cases hm : 15 ≤ st.n_methods
      · simp [h20, h10, hm]
      · by_cases hi : st.total_items ≠ 0
        · by_cases hdoc :
            percentage_hundredths st.documented_items st.total_items ≤ 5000
          · simp [h20, h10, hm, hi, hdoc]
          · simp [h20, h10, hm, hi, hdoc]
        · simp [h20, h10, hm, hi]

/-! ## Helper lemmas: the in-degree scan of `internal_dependencies` -/

theorem inDegreeStep_of_contains
    (st : Dict Nat × Dict Nat × Dict (List Str)) (dest : Str)
    (h : dictContains st.1 dest = true) :
    (inDegreeStep st dest).2.2 = st.2.2 ∧
      (∀ x, dictContains (inDegreeStep st dest).1 x =
        dictContains st.1 x) := by
  have hs : (dictGet? st.1 dest).isSome = true := by
    rw [dictGet?_isSome]
    exact h
  unfold inDegreeStep
  cases hg : dictGet? st.1 dest with
  | none => rw [hg] at hs; cases hs
  | some n =>
    refine ⟨rfl, fun x => ?_⟩
    rw [dictContains_dictInsert]
    by_cases hdx : (dest == x) = true
    · have : dest = x := by simpa using hdx
      subst this
      simp [h]
    · simp [hdx]

theorem inDegreeFold_no_missing (targets : List Str)
    (st0 : Dict Nat × Dict Nat × Dict (List Str))
    (h : ∀ dest ∈ targets, dictContains st0.1 dest = true) :
    (targets.foldl inDegreeStep st0).2.2 = st0.2.2 ∧
      (∀ x, dictContains (targets.foldl inDegreeStep st0).1 x =
        dictContains st0.1 x) := by
  refine foldl_preserve
    (fun st' => st'.2.2 = st0.2.2 ∧
      (∀ x, dictContains st'.1 x = dictContains st0.1 x))
    inDegreeStep targets st0 ⟨rfl, fun _ => rfl⟩ ?_
  intro st' dest hdest hp
  have hc : dictContains st'.1 dest = true := by
    rw [hp.2 dest]
    exact h dest hdest
  rcases inDegreeStep_of_contains st' dest hc with ⟨h1, h2⟩
  exact ⟨h1.trans hp.1, fun x => (h2 x).trans (hp.2 x)⟩

theorem inDegreeScan_no_missing (sets : List (List Str))
    (inDeg outDeg : Dict Nat) (depMap : Dict (List Str))
    (h : ∀ s ∈ sets, ∀ dest ∈ s, dictContains inDeg dest = true) :
    (inDegreeScan sets inDeg outDeg depMap).2.2 = depMap := by
  induction sets generalizing inDeg outDeg depMap with
  | nil => rfl
  | cons s rest ih =>
    unfold inDegreeScan
    have hfold := inDegreeFold_no_missing s (inDeg, outDeg, depMap)
      (fun dest hdest => h s (List.mem_cons_self s rest) dest hdest)
    rw [ih _ _ _ ?_, hfold.1]
    intro s' hs' dest hdest
    rw [hfold.2 dest]
    exact h s' (List.mem_cons_of_mem s hs') dest hdest

/-- C5 (amended): with a non-zero repository total, the hotspot list
contains exactly the candidates of the modules that qualify — non-zero
own SLOC, and (share ≥ 10%, or ≥ 15 methods, or documentable items with
coverage ≤ 50%) — and it is sorted by SLOC share descending, then
absolute SLOC descending. -/
theorem hotspots_modules_spec (total : Nat) (stats : List ModuleStat)
    (htotal : total ≠ 0) :
    (∀ c, c ∈ hotspots_modules total stats ↔
      ∃ st, st ∈ stats ∧ st.sloc ≠ 0 ∧ hotspotQualifies total st ∧
        c = mkHotspotCandidate total st)
    ∧ (hotspots_modules total stats).Pairwise hotspotGE := by
  unfold hotspots_modules
  rw [if_neg htotal]
  constructor
  · intro c
    rw [List.mem_insertionSort, mem_hotspotCandidates]
    constructor <;> rintro ⟨st, h1, h2, h3, h4⟩
    · refine ⟨st, h1, h2, ?_, h4⟩
      by_contra hq
      exact h3 ((hotspotComment_eq_nil_iff total st).mpr hq)
    · refine ⟨st, h1, h2, ?_, h4⟩
      intro hnil
      exact (hotspotComment_eq_nil_iff total st).mp hnil h3
  · exact List.sorted_insertionSort hotspotGE _

/-- Witness for C5 at a concrete size-qualified module. -/
theorem hotspots_modules_spec_witness :
    mkHotspotCandidate 10 statLarge ∈ hotspots_modules 10 [statLarge] :=
  ((hotspots_modules_spec 10 [statLarge] (by decide)).1 _).mpr
    ⟨statLarge, by decide, by decide, by decide, rfl⟩

/-- Counterexample to C5 as stated: a module with at least 15 methods
qualifies under the claim's criteria, yet when its own `sloc` field is
zero the code skips it, so the hotspot list is not "exactly the modules
that qualify". -/
theorem hotspots_modules_counterexample :
    15 ≤ statManyMethods.n_methods
    ∧ hotspots_modules 10 [statManyMethods] = [] := by
  refine ⟨by decide, by decide⟩

/-- C10: a zero repository total short-circuits `hotspots_modules` to the
empty list, and no candidate in a hotspot list ever carries a zero
`sloc`, whatever its method count or documentation coverage. -/
theorem hotspots_modules_zero_guard :
    (∀ stats, hotspots_modules 0 stats = [])
    ∧ (∀ (total : Nat) (stats : List ModuleStat) (c : HotspotCandidate),
        c ∈ hotspots_modules total stats → c.sloc ≠ 0) := by
  constructor
  · intro stats
    rfl
  · intro total stats c hc
    by_cases htotal : total = 0
    · subst htotal
      cases hc
    · unfold hotspots_modules at hc
      rw [if_neg htotal] at hc
      rcases (mem_hotspotCandidates total stats c).mp
          ((List.mem_insertionSort hotspotGE).mp hc) with ⟨st, _, h2, _, rfl⟩
      exact h2

/-- Witness for C10 with a concrete hotspot member. -/
theorem hotspots_modules_zero_guard_witness :
    (mkHotspotCandidate 10 statLarge).sloc ≠ 0 :=
  hotspots_modules_zero_guard.2 10 [statLarge] (mkHotspotCandidate 10 statLarge)
    (by decide)

theorem dictContains_keysZero (d : Dict (List Str)) (x : Str) :
    dictContains ((d.map (fun kv => kv.1)).map (fun m => (m, (0 : Nat)))) x =
      dictContains d x := by
  induction d with
  | nil => rfl
  | cons kv d ih =>
    simp only [List.map_cons, dictContains, List.any_cons] at *
    rw [ih]

/-- C9 (amended): the dependency-summary computation leaves its `dep_map`
argument unchanged provided every destination in every value set is
itself a key of the map — the shape `_resolve_imports` always produces.
When a destination is missing, the in-degree loop appends it to the map
(see the counterexample), so the function is not pure on such inputs. -/
theorem internal_dependencies_preserves_dep_map (depMap : Dict (List Str))
    (h : ∀ kv ∈ depMap, ∀ dest ∈ kv.2, dictContains depMap dest = true) :
    internal_dependencies_dep_map depMap = depMap := by
  unfold internal_dependencies_dep_map
  by_cases hd : depMap = []
  · rw [if_pos hd]
  · rw [if_neg hd]
    have hinit : ∀ x,
        dictContains ((depMap.map (fun kv => kv.1)).map (fun m => (m, (0 : Nat)))) x =
          dictContains depMap x := fun x => dictContains_keysZero depMap x
    apply inDegreeScan_no_missing
    intro s hs dest hdest
    rcases List.mem_map.mp hs with ⟨kv, hkv, rfl⟩
    rw [hinit dest]
    exact h kv hkv dest hdest

/-- Witness for C9 on a two-entry map whose destinations are all keys. -/
theorem internal_dependencies_preserves_dep_map_witness :
    internal_dependencies_dep_map
      [("a".data, ["b".data]), ("b".data, [])] =
      [("a".data, ["b".data]), ("b".data, [])] :=
  internal_dependencies_preserves_dep_map
    [("a".data, ["b".data]), ("b".data, [])] (by decide)

/-- Counterexample to C9 as stated: on the map sending `a` to the
non-key destination `b`, the in-degree loop's
`dep_map.setdefault(dest, set())` appends the entry `(b, ∅)`, so the
key set of the argument has changed after the call. -/
theorem internal_dependencies_mutates_dep_map :
    internal_dependencies_dep_map [("a".data, ["b".data])] =
      [("a".data, ["b".data]), ("b".data, [])]
    ∧ internal_dependencies_dep_map [("a".data, ["b".data])] ≠
      [("a".data, ["b".data])] := by
  refine ⟨by decide, by decide⟩

/-! ## Helper lemmas: the docstring normaliser -/

theorem normalizeLoop_no_headers (lines : List Str) (fuel idx : Nat)
    (hfuel : lines.length ≤ idx + fuel)
    (h : ∀ line ∈ lines, headersMap (pyStrip line) = none) :
    normalizeLoop lines lines.length fuel idx =
      (lines.drop idx).map (fun line => fix_asterisk (fix_bullets line)) := by
  induction fuel generalizing idx with
  | zero =>
    rw [List.drop_eq_nil_of_le (by omega)]
    rfl
  | succ fuel ih =>
    unfold normalizeLoop
    by_cases hidx : idx < lines.length
    · rw [if_pos hidx]
      have hget : lines.getD idx [] = lines[idx] :=
        List.getD_eq_getElem lines [] hidx
      have hline : headersMap (pyStrip (lines.getD idx [])) = none := by
        rw [hget]
        exact h _ (List.getElem_mem hidx)
      simp only [hline]
      rw [ih (idx + 1) (by omega), List.drop_eq_getElem_cons hidx,
        List.map_cons, hget]
    · rw [if_neg hidx, List.drop_eq_nil_of_le (by omega)]
      rfl

/-- C8 (amended): a documentation text none of whose (dedented) lines is a
recognised section header is returned with every line passed through the
two cosmetic fixers — bullet normalisation and emphasis-marker removal —
and otherwise unmodified apart from the dedent. -/
theorem normalize_document_no_sections (d : Str) (hne : d ≠ [])
    (h : ∀ line ∈ pySplitlines (cleandoc d), headersMap (pyStrip line) = none) :
    normalize_document (some d) =
      some (strJoin "\n".data ((pySplitlines (cleandoc d)).map
        (fun line => fix_asterisk (fix_bullets line)))) := by
  simp only [normalize_document]
  rw [if_neg hne]
  have hloop := normalizeLoop_no_headers (pySplitlines (cleandoc d))
    ((pySplitlines (cleandoc d)).length + 1) 0 (by omega) h
  rw [List.drop_zero] at hloop
  simp only [hloop]

/-- Witness for C8 on a one-line docstring without section headers. -/
theorem normalize_document_no_sections_witness :
    normalize_document (some "hello world".data) =
      some (strJoin "\n".data ((pySplitlines (cleandoc "hello world".data)).map
        (fun line => fix_asterisk (fix_bullets line)))) :=
  normalize_document_no_sections "hello world".data (by decide) (by decide)

/-- Counterexample to C8 as stated: `**bold**` contains no recognised
section header, yet the normaliser strips the emphasis markers, so the
text is not returned unmodified-modulo-dedent. -/
theorem normalize_document_counterexample :
    (∀ line ∈ pySplitlines (cleandoc "**bold**".data),
        headersMap (pyStrip line) = none)
    ∧ normalize_document (some "**bold**".data) ≠
        some (cleandoc "**bold**".data) := by
  refine ⟨by decide, by decide⟩

/-- Counterexample to C7: on matching documentation content — summary
`Sum`, parameter `x: d`, return `r`, exception `E: t` — the two parsers'
canonical texts differ: the brace-delimited extraction emits `*Params:*`
and `*Exceptions:*` where the indentation-delimited normaliser emits
`*Args:*` and `*Raises:*`, so the claimed identical section headers fail
already at the parameter section (line index 2 of both outputs). -/
theorem xml_doc_headers_counterexample :
    renderXmlDoc xmlDocExample =
      "Sum\n\n*Params:*\n- x: d\n\n*Returns:*\n- r\n\n*Exceptions:*\n- E: t".data
    ∧ normalize_document (some pyDocExample) =
      some "Sum\n\n*Args:*\n- x: d\n\n*Returns:*\n- r\n\n*Raises:*\n- E: t\n".data
    ∧ csDocLines.getD 2 [] ≠ pyDocLines.getD 2 [] := by
  refine ⟨by decide, by decide, by decide⟩

/-- C7 (amended): on matching documentation content the two parsers agree
on the bullet shape of parameter and exception items (`- name: text`) and
on the return-value header `*Returns:*`, but the parameter and exception
section headers differ: `*Params:*` and `*Exceptions:*` on the
brace-delimited side against `*Args:*` and `*Raises:*` from §4.2. -/
theorem xml_doc_headers_amended :
    csDocLines.getD 2 [] = "*Params:*".data
    ∧ csDocLines.getD 5 [] = "*Returns:*".data
    ∧ csDocLines.getD 8 [] = "*Exceptions:*".data
    ∧ pyDocLines.getD 2 [] = "*Args:*".data
    ∧ pyDocLines.getD 5 [] = "*Returns:*".data
    ∧ pyDocLines.getD 8 [] = "*Raises:*".data
    ∧ csDocLines.getD 3 [] = pyDocLines.getD 3 []
    ∧ csDocLines.getD 5 [] = pyDocLines.getD 5 []
    ∧ csDocLines.getD 6 [] = pyDocLines.getD 6 []
    ∧ csDocLines.getD 9 [] = pyDocLines.getD 9 []
    ∧ csDocLines.getD 2 [] ≠ pyDocLines.getD 2 []
    ∧ csDocLines.getD 8 [] ≠ pyDocLines.getD 8 [] := by
  refine ⟨by decide, by decide, by decide, by decide, by decide, by decide,
    by decide, by decide, by decide, by decide, by decide, by decide⟩

/-- C6 (documents the divergence): `_collect_usings` does return a
deduplicated, sorted list of the namespaces, but none of its entries
carries the `__ns__:` marker that the identifier-lookup builder
`_physical_paths` strips to recognise namespace imports — so on a module
whose imports come straight from `_collect_usings` the C# identifier
lookup is empty. -/
theorem collect_usings_no_marker :
    collect_usings csUsingExample = ["System".data, "System.Text".data]
    ∧ (∀ u ∈ collect_usings csUsingExample,
        pyStartswith "__ns__:".data u = false)
    ∧ physical_paths_csharp [csModuleExample] = [] := by
  refine ⟨by decide, by decide, by decide⟩
